import Mathlib

/-!
Verification development for the scene/entity/component core of the
GameEngine_ChickenDodge repository.  All definitions below are shallow
embeddings of the JavaScript code in `src/client/dist/merged.js`
(the compiled, merged form of the TypeScript sources); each definition's
doc comment names the function it embeds.  Asynchronous code is modelled
either as explicit state passing, as event traces, or as a small
"promise plan" syntax recording which calls are chained sequentially
(`p = p.then(...)`) and which are issued together and jointly awaited
(`Promise.all`).  Machine numbers (frame timestamps) are modelled as
rationals: the properties proved about them concern only comparison and
clamping, which floating-point `Math.min`/`Math.max` compute exactly.
-/

namespace ChickenDodge

/-- Embeds `clamp(x, min, max)` from the `utils` module:
`Math.min(Math.max(x, min), max)`. -/
def clamp (x lo hi : ℚ) : ℚ :=
  Min.min (Max.max x lo) hi

/-- Embeds the delta-time computation at the top of `loop(actions, time)` in
the `utils` module: `clamp((time - lastTime) / 1000, 0, 0.1)`, where
`lastTime` is the timestamp of the previous frame. -/
def loopDelta (time lastTime : ℚ) : ℚ :=
  clamp ((time - lastTime) / 1000) 0 (1 / 10)

/-- A per-frame call issued by one of the frame systems on a component
(identified by a numeric id). `display`/`render` are the two call kinds of
`DisplaySystem.iterate`, `update` the call kind of `LogicSystem.iterate`. -/
inductive FrameCall where
  | display (cid : Nat)
  | render (cid : Nat)
  | update (cid : Nat)
deriving DecidableEq, Repr

/-- Syntax of the promise structure a system iteration builds.
`step c rest` is sequential chaining (`p = p.then(() => call)`): `rest` is
issued only once the call `c` has settled.  `par cs` is `Promise.all` over
the calls `cs`: all issued before any settles, jointly awaited.
`andThen a b` runs plan `a` to completion, then plan `b`. -/
inductive Plan where
  | done : Plan
  | step : FrameCall → Plan → Plan
  | par : List FrameCall → Plan
  | andThen : Plan → Plan → Plan
deriving DecidableEq, Repr

/-- Observable events of a plan: a call being issued, and settling. -/
inductive PEvent where
  | issue (c : FrameCall)
  | settle (c : FrameCall)
deriving DecidableEq, Repr

/-- Event trace of a plan, in temporal order.  In a sequential chain each
call settles before the next is issued; in a `Promise.all` group all calls
are issued before any settles. -/
def Plan.events : Plan → List PEvent
  | .done => []
  | .step c rest => PEvent.issue c :: PEvent.settle c :: rest.events
  | .par cs => cs.map PEvent.issue ++ cs.map PEvent.settle
  | .andThen a b => a.events ++ b.events

/-- Sequential chaining of a list of calls, as built by the repeated
`p = p.then(() => ...)` pattern starting from `Promise.resolve()`. -/
def chainCalls : List FrameCall → Plan
  | [] => Plan.done
  | c :: rest => Plan.step c (chainCalls rest)

/-- Embeds the promise structure built by `DisplaySystem.iterate` after the
collection walk: `displayComp.forEach(c => p = p.then(() => c.display(dT)));
cameraComp.forEach(c => p = p.then(() => c.render(dT)))` — a single
sequential chain of all display calls followed by all render calls. -/
def displayIteratePlan (displayComp cameraComp : List Nat) : Plan :=
  chainCalls (displayComp.map FrameCall.display ++ cameraComp.map FrameCall.render)

/-- Embeds the promise structure built by `LogicSystem.iterate` after the
collection walk: `components.forEach(c => p.push(c.update(timing)));
return Promise.all(p)` — all updates issued together and jointly awaited. -/
def logicIteratePlan (components : List Nat) : Plan :=
  Plan.par (components.map FrameCall.update)

/-- Modelled from the spec: the display-system iteration as claim C6 words
it — the display group and the camera group each "issued in parallel and
jointly awaited the same way as the logic system's updates", displays
strictly before cameras.  This is the refinement target the code's
`displayIteratePlan` is compared against. -/
def displayIteratePlanSpec (displayComp cameraComp : List Nat) : Plan :=
  Plan.andThen (Plan.par (displayComp.map FrameCall.display))
    (Plan.par (cameraComp.map FrameCall.render))

/-- Queue effect of one `Scene.setupMissing()` pass on the unresolved-setup
queue `compDescr`.  The queue is the list of component ids in insertion
order (a JS `Map` iterates in insertion order).  `setupEff c` is the list of
component ids whose creation settles during `setup` of component `c`,
i.e. the ids that component enqueues.  During the pass every component
currently queued has `setup` run and is then deleted from the queue, while
the newly enqueued components are appended and survive the pass. -/
def setupMissingQueue (setupEff : Nat → List Nat) (q : List Nat) : List Nat :=
  q.flatMap setupEff

/-- Queue effect of `Scene.refreshLoop()`: `null` (no pass, nothing awaited)
when the queue is empty, otherwise the queue state after the single
`setupMissing()` pass it starts. -/
def refreshLoopQueue (setupEff : Nat → List Nat) (q : List Nat) : Option (List Nat) :=
  if q.isEmpty then none else some (setupMissingQueue setupEff q)

/-- State of the unresolved-setup queue at the instant the value returned by
`Scene.refresh()` settles.  In the source,
`p = p.then(() => { this.refresh(); }); return p;` — the `then` callback
invokes the recursive `refresh()` but does not return its promise, so the
returned promise settles as soon as the first `setupMissing()` pass has
settled and the callback has returned; the later passes launched by the
recursive call run unawaited, in strictly later microtasks.  Hence the
queue at settlement time is the queue after the first pass (or the
untouched empty queue when `refreshLoop` returned `null`). -/
def refreshSettledQueue (setupEff : Nat → List Nat) (q : List Nat) : List Nat :=
  match refreshLoopQueue setupEff q with
  | none => q
  | some qAfterFirstPass => qAfterFirstPass

/-- The fixed-point drain the fire-and-forget `refresh()` cascade performs:
passes repeat (each one a `setupMissing()` over the then-current queue)
until a pass finds the queue empty.  `fuel` bounds the number of passes. -/
def refreshDrain (setupEff : Nat → List Nat) : Nat → List Nat → List Nat
  | 0, q => q
  | fuel + 1, q => if q.isEmpty then q else refreshDrain setupEff fuel (setupMissingQueue setupEff q)

/-- Insertion-ordered association list standing for the JS `Map` that
`Entity.components` is; `mapSet` embeds `Map.set` (replace in place if the
key is present, else append). -/
def mapSet (m : List (String × Nat)) (k : String) (v : Nat) : List (String × Nat) :=
  if m.any (fun p => p.1 == k) then
    m.map (fun p => if p.1 == k then (k, v) else p)
  else m ++ [(k, v)]

/-- Embeds `Map.get` on the component map: the value stored at the key. -/
def mapGet (m : List (String × Nat)) (k : String) : Option Nat :=
  (m.find? (fun p => p.1 == k)).map (fun p => p.2)

/-- Milestones of one `Entity.addComponent(type, descr)` call, in the order
the source performs them: the synchronous `this.components.set(type,
newComponent)`, then `Promise.resolve().then(() => newComponent.create(descr))`
(the call, then its settlement), then the continuation that calls
`Scene.current.onComponentCreated` (enqueueing the descriptor), then the
resolution of the promise `addComponent` returned. -/
inductive AddCompEvent where
  | componentMapSet
  | createCalled
  | createSettled
  | descrEnqueued
  | promiseResolved
deriving DecidableEq, Repr

/-- The temporal order of the milestones of `Entity.addComponent`, read off
the statement order and promise chain of the source. -/
def addComponentEventOrder : List AddCompEvent :=
  [AddCompEvent.componentMapSet, AddCompEvent.createCalled, AddCompEvent.createSettled,
    AddCompEvent.descrEnqueued, AddCompEvent.promiseResolved]

/-- A component instance as the frame systems and the lookup helper see it:
its identity, its `enabled` flag, and its capabilities as probed by
`isLogicComponent` / `isDisplayComponent` / `isCameraComponent`
(presence of an `update` / `display` / `render` method). -/
structure Comp where
  cid : Nat
  enabled : Bool
  hasUpdate : Bool
  hasDisplay : Bool
  hasRender : Bool
deriving DecidableEq, Repr

/-- A snapshot of the live entity tree.  `eid` is a label identifying the
entity (entities have no id in the source; the label only lets theorems
speak about which entity was visited).  `components` is the entity's
component map in insertion order, `children` its child entities paired with
their registration names, in ascending insertion (order-index) order —
which is how `walkChildren` enumerates them. -/
inductive Ent where
  | mk (eid : Nat) (active : Bool) (components : List (String × Comp)) (children : List (String × Ent))

/-- Label of an entity node. -/
def Ent.eid : Ent → Nat
  | .mk i _ _ _ => i

/-- The `active` flag of an entity node. -/
def Ent.active : Ent → Bool
  | .mk _ a _ _ => a

/-- The component map of an entity node, in insertion order. -/
def Ent.components : Ent → List (String × Comp)
  | .mk _ _ cs _ => cs

/-- The named children of an entity node, in insertion order. -/
def Ent.children : Ent → List (String × Ent)
  | .mk _ _ _ ch => ch

/-- Embeds the `childrenByName` lookup over a snapshot of the children.
`Map.set` overwrites, so when two current entries share a name the map
holds the one inserted last: lookup on the reversed list. -/
def childLookup (children : List (String × Ent)) (objectName : String) : Option Ent :=
  (children.reverse.find? (fun p => p.1 == objectName)).map (fun p => p.2)

/-- Embeds `Entity.getChild(objectName)`: the `childrenByName` map lookup. -/
def Ent.getChild (e : Ent) (objectName : String) : Option Ent :=
  childLookup e.children objectName

/-- Embeds `Entity.getComponent(type)` restricted to the component id:
lookup in the component map (keys are unique in a map). -/
def Ent.getComponentId (e : Ent) (typeTag : String) : Option Nat :=
  ((e.components.find? (fun p => p.1 == typeTag)).map (fun p => p.2.cid))

mutual
/-- Embeds `Scene.walkRecursive(fn, entity, name, onlyActive)` as the list
of (entity, registration name) pairs `fn` is invoked on, in invocation
order.  The traversal is fully sequential (`p = p.then(() => fn(c, k))
.then(() => walkRecursive(fn, c, k, onlyActive))`), so the list order is
the temporal order of the `fn` calls.  The `onlyActive` test is performed
on `entity` at the head of `walkRecursive` before its children are walked;
`fn` itself is applied to each child by the parent's iteration. -/
def Ent.walkVisits (onlyActive : Bool) : Ent → List (Ent × String)
  | .mk _ active _ children =>
    if onlyActive && !active then [] else walkVisitsChildren onlyActive children

/-- The per-child part of `walkRecursive`: for each child in order, `fn`
is invoked on the child, then the walk recurses into the child. -/
def walkVisitsChildren (onlyActive : Bool) : List (String × Ent) → List (Ent × String)
  | [] => []
  | (k, c) :: rest =>
    ((c, k) :: Ent.walkVisits onlyActive c) ++ walkVisitsChildren onlyActive rest
end

/-- Embeds `Scene.walk(fn, onlyActive)`: `walkRecursive` started at the
root (the root itself is passed as `entity`, so `fn` is invoked on its
children, not on the root).  Reported as (entity label, name) pairs. -/
def sceneWalkVisits (onlyActive : Bool) (root : Ent) : List (Nat × String) :=
  (Ent.walkVisits onlyActive root).map (fun p => (p.1.eid, p.2))

mutual
/-- Embeds `Scene.findObjectRecursive(parent, objectName)`: first the
`parent.getChild(objectName)` map lookup among the direct children, and
only if that misses, a recursive search of each child subtree in
`walkChildren` order, keeping the first hit (`if (!found) ...`). -/
def findObjectRecursive : Ent → String → Option Ent
  | .mk _ _ _ children, objectName =>
    match childLookup children objectName with
    | some found => some found
    | none => findObjectInChildren children objectName

/-- The recursion of `findObjectRecursive` over the child list. -/
def findObjectInChildren : List (String × Ent) → String → Option Ent
  | [], _ => none
  | (_, c) :: rest, objectName =>
    match findObjectRecursive c objectName with
    | some found => some found
    | none => findObjectInChildren rest objectName
end

/-- Embeds `Scene.findObject(objectName)`:
`findObjectRecursive(this.root, objectName)`. -/
def findObject (root : Ent) (objectName : String) : Option Ent :=
  findObjectRecursive root objectName

mutual
/-- The candidate list realizing the order in which `findObjectRecursive`
finds matches: at each node, first the direct-children name-map hit (if
any), then the candidates inside each child subtree, children in insertion
order.  `findObjectRecursive` returns the head of this list. -/
def matchListNode : Ent → String → List Ent
  | .mk _ _ _ children, objectName =>
    (childLookup children objectName).toList ++ matchListChildren children objectName

/-- Subtree candidates of `matchListNode`, child by child. -/
def matchListChildren : List (String × Ent) → String → List Ent
  | [], _ => []
  | (_, c) :: rest, objectName =>
    matchListNode c objectName ++ matchListChildren rest objectName
end

mutual
/-- Modelled from the spec: the search order claim C5 describes —
depth-first preorder over the descendants, where each descendant is tested
(by its registration name under its direct parent) when first reached, and
the first match in that visitation order wins. -/
def dfsFindSpecList : List (String × Ent) → String → Option Ent
  | [], _ => none
  | (k, c) :: rest, objectName =>
    if k == objectName then some c
    else
      match dfsFindSpecInside c objectName with
      | some found => some found
      | none => dfsFindSpecList rest objectName

/-- Modelled from the spec: preorder descent of `dfsFindSpecList` into one
node's subtree. -/
def dfsFindSpecInside : Ent → String → Option Ent
  | .mk _ _ _ children, objectName => dfsFindSpecList children objectName
end

/-- Modelled from the spec: `findObject` as claim C5 words it — the first
descendant, in depth-first visitation order from the root, whose
registration name under its direct parent matches. -/
def dfsFindSpec (root : Ent) (objectName : String) : Option Ent :=
  dfsFindSpecInside root objectName

/-- Embeds the collection phase of `DisplaySystem.iterate`: the walk
(`Scene.current.walk(walkIterFn)`, `onlyActive` defaulted to true) visits
entities in walk order and `walkFn` appends, for each visited entity, the
ids of its components that pass `isDisplayComponent(comp) && comp.enabled`,
in component-map order. -/
def collectDisplayComp (root : Ent) : List Nat :=
  (Ent.walkVisits true root).flatMap
    (fun p => ((p.1.components.filter (fun q => q.2.hasDisplay && q.2.enabled)).map
      (fun q => q.2.cid)))

/-- Embeds the camera half of the same collection phase:
`isCameraComponent(comp) && comp.enabled`. -/
def collectCameraComp (root : Ent) : List Nat :=
  (Ent.walkVisits true root).flatMap
    (fun p => ((p.1.components.filter (fun q => q.2.hasRender && q.2.enabled)).map
      (fun q => q.2.cid)))

/-- A JavaScript value as it can reach `Component.findComponent`: a string,
a live component instance (identified by id), `undefined`, or any other
non-string value. -/
inductive Val where
  | vstr (s : String)
  | vcomp (cid : Nat)
  | vundef
  | vother (n : Nat)
deriving DecidableEq, Repr

/-- Character-level embedding of the JS `name.split('.')` used by
`Component.findComponent` (written out so that it reduces in the kernel;
`String.splitOn` does not).  The accumulator holds the current token
reversed. -/
def splitDotAux : List Char → List Char → List (List Char)
  | [], acc => [acc.reverse]
  | c :: rest, acc =>
    if c == '.' then acc.reverse :: splitDotAux rest [] else splitDotAux rest (c :: acc)

/-- The token list of `name.split('.')`. -/
def splitDot (s : String) : List String :=
  (splitDotAux s.data []).map (fun cs => String.mk cs)

/-- Embeds the static `Component.findComponent(name)` against the current
scene, given its root.  A non-string argument is returned unchanged
(`if (typeof(name) !== 'string') return name;`).  A string is split on
dots; `tokens[0]` names the target entity looked up with
`Scene.current.findObject`, `tokens[1]` the component type (it is
`undefined` when the string holds no dot, and `Map.get(undefined)` then
misses).  `target && target.getComponent(compName)` yields `undefined`
when the entity lookup misses, else the `getComponent` result (possibly
`undefined`). -/
def findComponent (root : Ent) (name : Val) : Val :=
  match name with
  | .vstr s =>
    let tokens := splitDot s
    let targetName := tokens.headD ""
    let compName := tokens.get? 1
    match findObject root targetName with
    | none => Val.vundef
    | some target =>
      match compName with
      | none => Val.vundef
      | some cn =>
        match target.getComponentId cn with
        | none => Val.vundef
        | some cid => Val.vcomp cid
  | v => v

/-- One record of `Entity.children` / `childrenByName` / `childrenByChild`:
the registration name, the insertion-order index assigned from
`nextChildOrder++`, and the child entity (by id).  The three JS collections
all hold these same entry objects; they are modelled as the one entry
list, in insertion order. -/
structure ChildEntry where
  name : String
  order : Nat
  childId : Nat
deriving DecidableEq, Repr

/-- The mutable per-entity state touched by `addChild` / `removeChild`:
the `nextChildOrder` counter, the child entries, and the `parent`
back-reference (an entity id or `null`). -/
structure EntityState where
  nextChildOrder : Nat
  children : List ChildEntry
  parent : Option Nat
deriving Repr

/-- A world of entities, indexed by entity id. -/
def World := Nat → EntityState

/-- Pointwise update of one entity's state. -/
def World.update (w : World) (i : Nat) (st : EntityState) : World :=
  fun j => if j = i then st else w j

/-- The two structural-violation errors `Entity.addChild` and
`Entity.removeChild` throw. -/
inductive EngineError where
  | alreadyParented
  | notParentedHere
deriving DecidableEq, Repr

/-- Embeds `Entity.addChild(objectName, child)` on entity `selfId`.  The
`if (child.parent) throw` guard is the first statement, so on error the
world is returned untouched.  Otherwise a new entry is created with
`order = this.nextChildOrder++`, inserted into the child collections, and
the child's `parent` back-reference is set. -/
def addChild (w : World) (selfId : Nat) (objectName : String) (childId : Nat) :
    Option EngineError × World :=
  if (w childId).parent.isSome then (some EngineError.alreadyParented, w)
  else
    let selfSt := w selfId
    let entry : ChildEntry := ⟨objectName, selfSt.nextChildOrder, childId⟩
    let w1 := World.update w selfId
      { selfSt with nextChildOrder := selfSt.nextChildOrder + 1,
                    children := selfSt.children ++ [entry] }
    let w2 := World.update w1 childId { w1 childId with parent := some selfId }
    (none, w2)

/-- Embeds `Entity.removeChild(child)` on entity `selfId`.  The
`if (child.parent !== this) throw` guard is the first statement, so on
error the world is returned untouched.  Otherwise the child's entry is
removed from the collections (entries are keyed by the child, unique per
child) and the back-reference is cleared. -/
def removeChild (w : World) (selfId : Nat) (childId : Nat) :
    Option EngineError × World :=
  if (w childId).parent ≠ some selfId then (some EngineError.notParentedHere, w)
  else
    let selfSt := w selfId
    let w1 := World.update w selfId
      { selfSt with children := selfSt.children.filter (fun en => en.childId != childId) }
    let w2 := World.update w1 childId { w1 childId with parent := none }
    (none, w2)

/-- The comparator of `Entity.walkChildren`:
`sort((a, b) => a.order - b.order)`, i.e. ascending order index. -/
def orderLE (a b : ChildEntry) : Prop :=
  a.order ≤ b.order

instance : DecidableRel orderLE :=
  fun a b => Nat.decLe a.order b.order

instance : IsTotal ChildEntry orderLE :=
  ⟨fun a b => Nat.le_total a.order b.order⟩

instance : IsTrans ChildEntry orderLE :=
  ⟨fun _ _ _ h1 h2 => Nat.le_trans h1 h2⟩

/-- Embeds `Entity.walkChildren(fn)`: the child entries sorted by ascending
order index, each visited as `fn(entry.child, entry.name)`.  Order indices
of one entity's entries are pairwise distinct (each comes from
`nextChildOrder++`), so every comparison sort computes the same list;
insertion sort is used here. -/
def walkChildren (st : EntityState) : List (Nat × String) :=
  (List.insertionSort orderLE st.children).map (fun en => (en.childId, en.name))

/-- Lifecycle events of components (identified by instance id) as driven by
`Entity.addComponent` and `Scene.refresh`: a component's `create(descr)`
settling, the continuation `Scene.current.onComponentCreated(newComponent,
descr)` recording it in the unresolved-setup queue, `setup(descr)` being
invoked on it during a `setupMissing` pass, and the
`compDescr.delete(comp)` continuation after its `setup` settles. -/
inductive CompEvent where
  | createSettled (c : Nat)
  | descrEnqueued (c : Nat)
  | setupCalled (c : Nat)
  | setupSettled (c : Nat)
deriving DecidableEq, Repr

/-- The lifecycle state: which component instances have had `create`
settle, and which are currently in the unresolved-setup queue
(`Scene.compDescr`). -/
structure CompState where
  created : List Nat
  queue : List Nat
deriving DecidableEq, Repr

/-- One interleaving step of the component lifecycle, as the source allows
it.  `createSettled` is the settlement of the `create(descr)` call inside
`addComponent` (a fresh component instance, so at most once per id).
`descrEnqueued` is the `onComponentCreated` call — it sits in the `then`
continuation after `create`, so it can only fire for a component whose
`create` has settled; `compDescr` is a `Map`, so a component id appears in
the queue at most once.  `setupCalled` is `comp.setup(descr)` inside
`setupMissing`, which iterates only over `compDescr`, so only a queued
component can have `setup` invoked.  `setupSettled` removes the component
from the queue. -/
inductive CompStep : CompState → CompEvent → CompState → Prop where
  | createSettled (s : CompState) (c : Nat) (hc : c ∉ s.created) :
      CompStep s (CompEvent.createSettled c) { s with created := c :: s.created }
  | descrEnqueued (s : CompState) (c : Nat) (hcr : c ∈ s.created) (hq : c ∉ s.queue) :
      CompStep s (CompEvent.descrEnqueued c) { s with queue := c :: s.queue }
  | setupCalled (s : CompState) (c : Nat) (hq : c ∈ s.queue) :
      CompStep s (CompEvent.setupCalled c) s
  | setupSettled (s : CompState) (c : Nat) :
      CompStep s (CompEvent.setupSettled c)
        { s with queue := s.queue.filter (fun x => x != c) }

/-- A finite execution: a trace of steps from one state to another, the
event list in temporal order. -/
inductive CompTrace : CompState → List CompEvent → CompState → Prop where
  | nil (s : CompState) : CompTrace s [] s
  | cons {s s1 s2 : CompState} {e : CompEvent} {es : List CompEvent} :
      CompStep s e s1 → CompTrace s1 es s2 → CompTrace s (e :: es) s2

/-- The empty initial lifecycle state: no component created, empty queue. -/
def compInit : CompState :=
  { created := [], queue := [] }

/-- Event trace of a sequential chain: issue, settle, call after call. -/
theorem chainCalls_events (l : List FrameCall) :
    (chainCalls l).events = l.flatMap (fun c => [PEvent.issue c, PEvent.settle c]) := by
  induction l with
  | nil => rfl
  | cons c rest ih => simp [chainCalls, Plan.events, ih]

/-- Setting a key in the component map makes lookup of that key return the
new value, whether or not the key was present. -/
theorem mapGet_mapSet (m : List (String × Nat)) (k : String) (v : Nat) :
    mapGet (mapSet m k v) k = some v := by
  unfold mapSet mapGet
  by_cases h : m.any (fun p => p.1 == k) = true
  · rw [if_pos h]
    induction m with
    | nil => simp at h
    | cons p rest ih =>
      by_cases hp : p.1 == k
      · simp [List.find?, hp]
      · have hrest : rest.any (fun p => p.1 == k) = true := by
          simpa [List.any_cons, hp] using h
        simpa [List.find?, hp] using ih hrest
  · rw [if_neg h]
    induction m with
    | nil => simp [List.find?]
    | cons p rest ih =>
      have hp : (p.1 == k) = false := by
        by_contra hc
        exact h (by simp [List.any_cons, eq_true_of_ne_false hc])
      have hrest : ¬ rest.any (fun p => p.1 == k) = true := by
        intro hc
        exact h (by simp [List.any_cons, hc])
      simpa [List.find?, hp] using ih hrest

/-- C8: the delta-time the frame loop passes to the per-frame actions is
`(time - lastTime) / 1000` clamped into the closed interval `[0, 0.1]`; in
particular it is never negative and never exceeds `0.1` seconds, however
large `time - lastTime` is. -/
theorem C8_loopDelta_clamped (time lastTime : ℚ) :
    loopDelta time lastTime = clamp ((time - lastTime) / 1000) 0 (1 / 10) ∧
    0 ≤ loopDelta time lastTime ∧ loopDelta time lastTime ≤ 1 / 10 := by
  refine ⟨rfl, ?_, ?_⟩
  · unfold loopDelta clamp
    exact le_min (le_max_right _ _) (by norm_num)
  · unfold loopDelta clamp
    exact min_le_right _ _

/-- The setup effect used to exhibit the early settlement of `refresh()`:
component 0's `setup` enqueues component 1, whose own `setup` enqueues
nothing. -/
def exSetupEff : Nat → List Nat :=
  fun c => if c = 0 then [1] else []

/-- C1: evaluation of the model at the failing input.  With the queue
holding component 0, whose `setup` enqueues component 1, the promise
returned by `Scene.refresh()` settles while the queue still holds
component 1 — because the callback in `p = p.then(() => { this.refresh(); })`
does not return the recursive promise — even though the fire-and-forget
cascade does drain the queue to a fixed point two passes later.  This
contradicts the claim that the value returned by `refresh()` settles only
once the queue has been drained. -/
theorem C1_refresh_settles_before_drained :
    refreshSettledQueue exSetupEff [0] = [1] ∧
    refreshSettledQueue exSetupEff [0] ≠ [] ∧
    refreshDrain exSetupEff 2 [0] = [] := by
  decide

/-- C6 counterexample: with two enabled display components and no camera,
the promise structure `DisplaySystem.iterate` builds is a sequential chain
(the first display call settles before the second is issued), while the
claim's parallel-issue/joint-wait structure issues both before either
settles — the logic system's `Promise.all` shape, which really does issue
all updates before any settles. -/
theorem C6_display_not_parallel_counterexample :
    (displayIteratePlan [0, 1] []).events ≠ (displayIteratePlanSpec [0, 1] []).events ∧
    (displayIteratePlan [0, 1] []).events =
      [PEvent.issue (FrameCall.display 0), PEvent.settle (FrameCall.display 0),
        PEvent.issue (FrameCall.display 1), PEvent.settle (FrameCall.display 1)] ∧
    (displayIteratePlanSpec [0, 1] []).events =
      [PEvent.issue (FrameCall.display 0), PEvent.issue (FrameCall.display 1),
        PEvent.settle (FrameCall.display 0), PEvent.settle (FrameCall.display 1)] ∧
    (logicIteratePlan [0, 1]).events =
      [PEvent.issue (FrameCall.update 0), PEvent.issue (FrameCall.update 1),
        PEvent.settle (FrameCall.update 0), PEvent.settle (FrameCall.update 1)] := by
  decide

/-- C6 amended: one display-system iteration collects the enabled
display-capable and the enabled camera-capable components into two lists
in tree-walk order, and then issues all calls as one sequential chain —
each call is issued only after the previous one settles — with every
display call issued and settled strictly before any camera render call is
issued.  This is sequential chaining, not the logic system's
parallel-issue/joint-wait. -/
theorem C6_display_sequential_chain (t : Ent) :
    (displayIteratePlan (collectDisplayComp t) (collectCameraComp t)).events =
      (((collectDisplayComp t).map FrameCall.display).flatMap
        (fun c => [PEvent.issue c, PEvent.settle c])) ++
      (((collectCameraComp t).map FrameCall.render).flatMap
        (fun c => [PEvent.issue c, PEvent.settle c])) := by
  unfold displayIteratePlan
  rw [chainCalls_events, List.flatMap_append]

/-- C9: the component mapping is updated synchronously by
`Entity.addComponent`: lookup of the type tag already returns the freshly
constructed component (replacing any prior one), and in the temporal order
of `addComponent`'s milestones the synchronous map update strictly
precedes the settlement of `create` and the resolution of the returned
promise. -/
theorem C9_addComponent_sync_map (m : List (String × Nat)) (t : String) (cid : Nat) :
    mapGet (mapSet m t cid) t = some cid ∧
    addComponentEventOrder.indexOf AddCompEvent.componentMapSet <
      addComponentEventOrder.indexOf AddCompEvent.createSettled ∧
    addComponentEventOrder.indexOf AddCompEvent.componentMapSet <
      addComponentEventOrder.indexOf AddCompEvent.promiseResolved :=
  ⟨mapGet_mapSet m t cid, by decide, by decide⟩

/-- C10: `Component.findComponent` returns any non-string argument
unchanged; only strings are split on dots and resolved through
`findObject` and `getComponent`. -/
theorem C10_findComponent_nonstring_identity (root : Ent) (v : Val)
    (h : ∀ s, v ≠ Val.vstr s) : findComponent root v = v := by
  cases v with
  | vstr s => exact absurd rfl (h s)
  | vcomp c => rfl
  | vundef => rfl
  | vother n => rfl

/-- C10 witness: a live component instance passes through the resolver
untouched. -/
theorem C10_findComponent_nonstring_identity_witness :
    findComponent (Ent.mk 0 true [] []) (Val.vcomp 7) = Val.vcomp 7 :=
  C10_findComponent_nonstring_identity (Ent.mk 0 true [] []) (Val.vcomp 7)
    (fun _ h => Val.noConfusion h)

/-- The tree of claim C2: root(0, active) → A(1, active) → B(2, inactive)
→ C(3, active). -/
def exWalkTree : Ent :=
  Ent.mk 0 true []
    [("A", Ent.mk 1 true []
      [("B", Ent.mk 2 false []
        [("C", Ent.mk 3 true [] [])])])]

/-- C2 counterexample: on the claim's own tree, `walk(fn, true)` invokes
`fn` on A *and on the inactive B* (the `onlyActive` test is performed on an
entity only when the walk recurses into it, after its parent has already
invoked `fn` on it), and never invokes `fn` on the root; only B's subtree
(C) is skipped.  The claim says the visits are exactly root and A. -/
theorem C2_walk_visits_counterexample :
    sceneWalkVisits true exWalkTree = [(1, "A"), (2, "B")] ∧
    (2, "B") ∈ sceneWalkVisits true exWalkTree ∧
    ∀ p ∈ sceneWalkVisits true exWalkTree, p.1 ≠ 0 ∧ p.1 ≠ 3 := by
  decide

/-- C2 amended: `walk(fn, true)` skips the *subtree* of an inactive entity,
but not the inactive entity itself: a walk started at an inactive entity
visits nothing, while an inactive child of a visited active parent still
has `fn` invoked on it (its descendants are not visited); `fn` is never
invoked on the root entity.  On the claim's tree root → A(active) →
B(inactive) → C(active), the walk visits exactly A and B, never the root
or C. -/
theorem C2_walk_skips_inactive_subtree :
    (∀ (eid : Nat) (comps : List (String × Comp)) (children : List (String × Ent)),
      Ent.walkVisits true (Ent.mk eid false comps children) = []) ∧
    (∀ (i0 i1 i2 i3 : Nat) (act : Bool) (nA nB nC : String),
      sceneWalkVisits true
        (Ent.mk i0 true []
          [(nA, Ent.mk i1 true []
            [(nB, Ent.mk i2 false []
              [(nC, Ent.mk i3 act [] [])])])]) = [(i1, nA), (i2, nB)]) := by
  constructor
  · intro eid comps children
    rfl
  · intro i0 i1 i2 i3 act nA nB nC
    rfl

/-- A world in which entity 1 is already parented to entity 0 and entity 2
is childless. -/
def exWorld : World :=
  fun i => if i = 1 then ⟨0, [], some 0⟩ else ⟨0, [], none⟩

/-- C4: `addChild` raises the already-parented error when the child has a
parent, `removeChild` raises the not-parented-here error when the child's
parent is not the caller, and in both failure cases the returned world is
exactly the input world — the guard is the first statement of each method,
so no collection, order index or back-reference is touched. -/
theorem C4_structural_violation_atomic (w : World) (e c : Nat) (objectName : String) :
    ((w c).parent.isSome → addChild w e objectName c = (some EngineError.alreadyParented, w)) ∧
    ((w c).parent ≠ some e → removeChild w e c = (some EngineError.notParentedHere, w)) := by
  constructor
  · intro h
    unfold addChild
    rw [if_pos h]
  · intro h
    unfold removeChild
    rw [if_pos h]

/-- C4 witness: in `exWorld`, attaching the already-parented entity 1 under
entity 2 fails and removing entity 1 from the non-parent entity 2 fails,
both leaving the world untouched. -/
theorem C4_structural_violation_atomic_witness :
    addChild exWorld 2 "x" 1 = (some EngineError.alreadyParented, exWorld) ∧
    removeChild exWorld 2 1 = (some EngineError.notParentedHere, exWorld) :=
  ⟨(C4_structural_violation_atomic exWorld 2 1 "x").1 (by decide),
    (C4_structural_violation_atomic exWorld 2 1 "x").2 (by decide)⟩

/-- The tree of the C5 counterexample: the root has the children
A(1) — itself with a child named "x" (entity 10) — and then a direct child
named "x" (entity 20).  Depth-first preorder reaches entity 10 before
entity 20. -/
def exFindTree : Ent :=
  Ent.mk 0 true []
    [("A", Ent.mk 1 true [] [("x", Ent.mk 10 true [] [])]),
      ("x", Ent.mk 20 true [] [])]

/-- C5 counterexample: `findObject` consults the current node's
direct-children name map before descending, so it returns the root's
direct child "x" (entity 20), while the first match in depth-first
visitation order is entity 10 inside A's subtree.  The two search orders
disagree on this tree. -/
theorem C5_findObject_not_dfs_counterexample :
    (findObject exFindTree "x").map Ent.eid = some 20 ∧
    (dfsFindSpec exFindTree "x").map Ent.eid = some 10 ∧
    findObject exFindTree "x" ≠ dfsFindSpec exFindTree "x" := by
  refine ⟨by decide, by decide, ?_⟩
  intro heq
  have h1 : (findObject exFindTree "x").map Ent.eid = some 20 := by decide
  have h2 : (dfsFindSpec exFindTree "x").map Ent.eid = some 10 := by decide
  rw [heq, h2] at h1
  simp at h1

mutual
/-- The result of `findObjectRecursive` is the head of the candidate list
that realizes its search order. -/
theorem findObjectRecursive_eq_head : ∀ (e : Ent) (n : String),
    findObjectRecursive e n = (matchListNode e n).head?
  | .mk i a cs children, n => by
    unfold findObjectRecursive matchListNode
    cases h : childLookup children n with
    | some c => simp [Option.toList, h]
    | none => simp [Option.toList, h, findObjectInChildren_eq_head children n]

/-- The per-child-list version of `findObjectRecursive_eq_head`. -/
theorem findObjectInChildren_eq_head : ∀ (l : List (String × Ent)) (n : String),
    findObjectInChildren l n = (matchListChildren l n).head?
  | [], _ => rfl
  | (k, c) :: rest, n => by
    unfold findObjectInChildren matchListChildren
    rw [List.head?_append]
    rw [← findObjectRecursive_eq_head c n, ← findObjectInChildren_eq_head rest n]
    cases h : findObjectRecursive c n with
    | some found => simp [Option.or]
    | none => simp [Option.or]
end

/-- C5 amended: `findObject(name)` returns the first match in the order
that, at each visited node, first consults the node's direct-children name
map and only then recursively searches each child's subtree in insertion
order — so a direct child of a node shadows any match lying strictly
inside the subtrees of that node's children, even one that precedes it in
depth-first preorder; the result is absent exactly when the candidate list
is empty. -/
theorem C5_findObject_head_of_matchList (e : Ent) (n : String) :
    findObject e n = (matchListNode e n).head? :=
  findObjectRecursive_eq_head e n

/-- In a list sorted by ascending order index, an entry with a strictly
smaller order index sits at a strictly smaller position. -/
theorem pos_lt_of_order_lt {l : List ChildEntry} (hs : l.Pairwise orderLE)
    {i j : Fin l.length} (hij : (l.get i).order < (l.get j).order) : i < j := by
  rcases lt_trichotomy i j with h | h | h
  · exact h
  · rw [h] at hij
    exact absurd hij (lt_irrefl _)
  · have := (List.pairwise_iff_get.mp hs) j i h
    exact absurd (Nat.lt_of_lt_of_le hij this) (lt_irrefl _)

/-- C7: (a) a successful `addChild` appends to the parent's child entries a
new entry carrying the next ascending order index, leaving the existing
entries untouched; (b) `walkChildren` visits entries in ascending order
index, so three children whose entries carry ascending order indices —
as entries added in that order do, whatever removals and re-additions of
other children happened in between — are visited in exactly that order. -/
theorem C7_walkChildren_insertion_order :
    (∀ (w : World) (e c : Nat) (objectName : String), (w c).parent = none →
      ((addChild w e objectName c).2 e).children =
        (w e).children ++ [⟨objectName, (w e).nextChildOrder, c⟩] ∧
      ((addChild w e objectName c).2 c).parent = some e) ∧
    (∀ (st : EntityState) (e1 e2 e3 : ChildEntry),
      e1 ∈ st.children → e2 ∈ st.children → e3 ∈ st.children →
      e1.order < e2.order → e2.order < e3.order →
      ∃ i j k : Nat, i < j ∧ j < k ∧
        (walkChildren st).get? i = some (e1.childId, e1.name) ∧
        (walkChildren st).get? j = some (e2.childId, e2.name) ∧
        (walkChildren st).get? k = some (e3.childId, e3.name)) := by
  constructor
  · intro w e c objectName hc
    unfold addChild
    rw [if_neg (by simp [hc])]
    unfold World.update
    constructor
    · by_cases hec : e = c <;> simp [hec]
    · simp
  · intro st e1 e2 e3 h1 h2 h3 h12 h23
    have hs : (List.insertionSort orderLE st.children).Pairwise orderLE :=
      List.sorted_insertionSort orderLE st.children
    have hperm := List.perm_insertionSort orderLE st.children
    obtain ⟨i, hi⟩ := List.mem_iff_get.mp (hperm.mem_iff.mpr h1)
    obtain ⟨j, hj⟩ := List.mem_iff_get.mp (hperm.mem_iff.mpr h2)
    obtain ⟨k, hk⟩ := List.mem_iff_get.mp (hperm.mem_iff.mpr h3)
    have hij : i < j := pos_lt_of_order_lt hs (by rw [hi, hj]; exact h12)
    have hjk : j < k := pos_lt_of_order_lt hs (by rw [hj, hk]; exact h23)
    refine ⟨i, j, k, hij, hjk, ?_, ?_, ?_⟩ <;>
      unfold walkChildren <;>
      rw [List.get?_map, List.get?_eq_get (Fin.is_lt _)]
    · rw [hi]; rfl
    · rw [hj]; rfl
    · rw [hk]; rfl

/-- C7 witness: a concrete child-entry collection with entries added in
order (order indices 0, 1, 2) is visited in exactly that order. -/
theorem C7_walkChildren_insertion_order_witness :
    ((addChild exWorld 2 "w" 3).2 2).children = [⟨"w", 0, 3⟩] ∧
    ∃ i j k : Nat, i < j ∧ j < k ∧
      (walkChildren ⟨3, [⟨"a", 0, 10⟩, ⟨"b", 1, 11⟩, ⟨"c", 2, 12⟩], none⟩).get? i =
        some (10, "a") ∧
      (walkChildren ⟨3, [⟨"a", 0, 10⟩, ⟨"b", 1, 11⟩, ⟨"c", 2, 12⟩], none⟩).get? j =
        some (11, "b") ∧
      (walkChildren ⟨3, [⟨"a", 0, 10⟩, ⟨"b", 1, 11⟩, ⟨"c", 2, 12⟩], none⟩).get? k =
        some (12, "c") :=
  ⟨((C7_walkChildren_insertion_order.1 exWorld 2 3 "w" (by decide)).1),
    C7_walkChildren_insertion_order.2 ⟨3, [⟨"a", 0, 10⟩, ⟨"b", 1, 11⟩, ⟨"c", 2, 12⟩], none⟩
      ⟨"a", 0, 10⟩ ⟨"b", 1, 11⟩ ⟨"c", 2, 12⟩ (by decide) (by decide) (by decide)
      (by decide) (by decide)⟩

/-- Every lifecycle step preserves the invariant that the unresolved-setup
queue only holds components whose `create` has settled. -/
theorem queue_sub_created_step {s s1 : CompState} {e : CompEvent}
    (h : CompStep s e s1) (hsub : ∀ c ∈ s.queue, c ∈ s.created) :
    ∀ c ∈ s1.queue, c ∈ s1.created := by
  cases h with
  | createSettled c hc =>
    intro d hd
    exact List.mem_cons_of_mem _ (hsub d hd)
  | descrEnqueued c hcr hq =>
    intro d hd
    rcases List.mem_cons.mp hd with h | h
    · rw [h]; exact hcr
    · exact hsub d h
  | setupCalled c hq =>
    exact hsub
  | setupSettled c =>
    intro d hd
    exact hsub d (List.mem_of_mem_filter hd)

/-- Along any trace from a state whose queue only holds already-created
components, a `setup` invocation on a component is preceded by that
component's `create` settling — unless the component was already created
before the trace began. -/
theorem setup_after_create_aux {s0 : CompState} {es : List CompEvent} {s : CompState}
    (htr : CompTrace s0 es s) :
    (∀ c ∈ s0.queue, c ∈ s0.created) →
    ∀ i c, es.get? i = some (CompEvent.setupCalled c) →
      c ∈ s0.created ∨ ∃ j, j < i ∧ es.get? j = some (CompEvent.createSettled c) := by
  induction htr with
  | nil s =>
    intro _ i c h
    rw [List.get?_nil] at h
    cases h
  | cons hstep htl ih =>
    intro hsub i c hget
    cases i with
    | zero =>
      have he : _ = CompEvent.setupCalled c := Option.some.inj hget
      rw [he] at hstep
      cases hstep with
      | setupCalled c hq =>
        exact Or.inl (hsub c hq)
    | succ n =>
      have hsub1 := queue_sub_created_step hstep hsub
      rcases ih hsub1 n c hget with hc | ⟨j, hj, hjget⟩
      · cases hstep with
        | createSettled c0 hc0 =>
          rcases List.mem_cons.mp hc with h | h
          · exact Or.inr ⟨0, Nat.succ_pos n, by rw [h]; rfl⟩
          · exact Or.inl h
        | descrEnqueued c0 hcr hq =>
          exact Or.inl hc
        | setupCalled c0 hq =>
          exact Or.inl hc
        | setupSettled c0 =>
          exact Or.inl hc
      · exact Or.inr ⟨j + 1, Nat.succ_lt_succ hj, hjget⟩

/-- C3: in every execution of the component lifecycle from the empty
initial state, whenever `setup` is invoked on a component (which only
happens to components in the unresolved-setup queue, during a
`setupMissing` pass of `Scene.refresh`), that component's `create` has
already settled earlier in the trace — the descriptor is enqueued only by
the continuation that runs after `create` resolves. -/
theorem C3_setup_never_before_create {es : List CompEvent} {s : CompState}
    (htr : CompTrace compInit es s) (i : Nat) (c : Nat)
    (hget : es.get? i = some (CompEvent.setupCalled c)) :
    ∃ j, j < i ∧ es.get? j = some (CompEvent.createSettled c) := by
  rcases setup_after_create_aux htr (by intro c hc; simp [compInit] at hc) i c hget with h | h
  · simp [compInit] at h
  · exact h

/-- C3 witness: in the concrete trace create-settles(0), enqueue(0),
setup(0), the `setup` invocation at index 2 is preceded by the `create`
settlement. -/
theorem C3_setup_never_before_create_witness :
    ∃ j, j < 2 ∧
      [CompEvent.createSettled 0, CompEvent.descrEnqueued 0,
        CompEvent.setupCalled 0].get? j = some (CompEvent.createSettled 0) :=
  C3_setup_never_before_create
    (CompTrace.cons (CompStep.createSettled compInit 0 (by decide))
      (CompTrace.cons (CompStep.descrEnqueued _ 0 (by decide) (by decide))
        (CompTrace.cons (CompStep.setupCalled _ 0 (by decide))
          (CompTrace.nil _))))
    2 0 rfl

end ChickenDodge
